import Mathlib

set_option linter.unusedVariables false

/-!
Verification development for the Vectis Python SDK
(`src/python-sdk/vectis/vector.py` and `src/python-sdk/vectis/client.py`).

Float arithmetic on vector components is modelled over the exact rationals
(each numpy scalar value is a rational number); the square roots taken by
`np.linalg.norm` are modelled over the reals, relationally where a defined
function would not be computable.  Failure channels (numpy `ValueError` /
`IndexError`, `VectisError` raised by the client) are modelled with
`Option` / `Except`.
-/

namespace Vec

/-- Sum of componentwise products of two lists, the value `np.dot` computes
on two 1-D arrays of equal length. -/
def dotSum (v w : List ℚ) : ℚ :=
  (List.zipWith (fun a b => a * b) v w).sum

/-- `np.dot` on 1-D arrays: requires equal lengths and raises `ValueError`
otherwise (modelled as `none`); no broadcasting happens for the 1-D dot. -/
def npDot (v w : List ℚ) : Option ℚ :=
  if v.length = w.length then some (dotSum v w) else none

/-- numpy subtraction of two 1-D arrays with broadcasting: equal lengths
subtract componentwise; a length-1 array broadcasts against the other
operand; any other shape combination raises `ValueError` (`none`). -/
def npSub (v w : List ℚ) : Option (List ℚ) :=
  if v.length = w.length then some (List.zipWith (fun a b => a - b) v w)
  else if v.length = 1 then some (w.map (fun b => v.headI - b))
  else if w.length = 1 then some (v.map (fun a => a - w.headI))
  else none

/-- Squared L2 norm: the square of the value `np.linalg.norm` returns. -/
def normSq (v : List ℚ) : ℚ :=
  dotSum v v

/-- `Vector.dot_product`: `float(np.dot(self.data, other.data))`. -/
def dot_product (v w : List ℚ) : Option ℚ :=
  npDot v w

/-- `Vector.euclidean_distance` squared:
`float(np.linalg.norm(self.data - other.data))` is the square root of this
value; `none` is the `ValueError` raised by the subtraction when the shapes
neither match nor broadcast. -/
def dist2 (v w : List ℚ) : Option ℚ :=
  (npSub v w).map normSq

/-- `Vector.cosine_similarity`, relationally: `cosine_similarity v w r`
holds exactly when the method returns the real value `r`.  The method first
computes `np.dot(self.data, other.data)` (raising on length mismatch, hence
the leading existential), then returns `0.0` when either norm is zero, and
`dot / (norm_self * norm_other)` otherwise. -/
def cosine_similarity (v w : List ℚ) (r : ℝ) : Prop :=
  ∃ d : ℚ, npDot v w = some d ∧
    ((normSq v = 0 ∨ normSq w = 0) → r = 0) ∧
    (¬(normSq v = 0 ∨ normSq w = 0) →
      r = (d : ℝ) / (Real.sqrt (normSq v) * Real.sqrt (normSq w)))

/-- `Vector.normalize`, relationally: `normalizesTo v w` holds exactly when
the method returns the real-valued component list `w`.  The method computes
`norm = np.linalg.norm(self.data)` and returns `self.data / norm` when
`norm > 0` (equivalently, when the squared norm is positive), otherwise a
copy of the original data.  The positive real `n` with `n ^ 2 = normSq v`
is the square root the source takes. -/
def normalizesTo (v : List ℚ) (w : List ℝ) : Prop :=
  if 0 < normSq v then
    ∃ n : ℝ, 0 < n ∧ n ^ 2 = (normSq v : ℝ) ∧ w = v.map (fun x : ℚ => (x : ℝ) / n)
  else w = v.map (fun x : ℚ => (x : ℝ))

/-- `Vector.__getitem__`: numpy 1-D integer indexing.  Indices in
`[-n, n)` are valid (negative indices count from the end); anything else
raises `IndexError` (`none`). -/
def getitem (v : List ℚ) (i : ℤ) : Option ℚ :=
  if 0 ≤ i ∧ i < (v.length : ℤ) then v.get? i.toNat
  else if -(v.length : ℤ) ≤ i ∧ i < 0 then v.get? (i + (v.length : ℤ)).toNat
  else none

/-- `Vector.__setitem__`: numpy 1-D integer index assignment.  Valid indices
are the same as for reading; assignment never changes the length, and an
out-of-range index raises `IndexError` (`none`). -/
def setitem (v : List ℚ) (i : ℤ) (x : ℚ) : Option (List ℚ) :=
  if 0 ≤ i ∧ i < (v.length : ℤ) then some (v.set i.toNat x)
  else if -(v.length : ℤ) ≤ i ∧ i < 0 then some (v.set (i + (v.length : ℤ)).toNat x)
  else none

/-- Number of binary digits of `n`, by fuel-driven structural recursion
(`nbits fuel n` is exact whenever `n < 2 ^ fuel`; the fixed fuel used below
covers every value an IEEE double can take, with a wide margin). -/
def nbits : ℕ → ℕ → ℕ
  | 0, _ => 0
  | f + 1, n => if n = 0 then 0 else nbits f (n / 2) + 1

/-- Decides `2 ^ e ≤ n / d` for naturals `n`, `d` with `d > 0`, using only
integer arithmetic. -/
def le2exp (d n : ℕ) (e : ℤ) : Bool :=
  if 0 ≤ e then d * 2 ^ e.toNat ≤ n else d ≤ n * 2 ^ (-e).toNat

/-- Round `N / D` to the nearest natural, ties to even (`D` positive): the
IEEE-754 default rounding used by numpy when narrowing to `float32`. -/
def rne (N D : ℕ) : ℕ :=
  if 2 * (N % D) < D then N / D
  else if D < 2 * (N % D) then N / D + 1
  else if (N / D) % 2 = 0 then N / D else N / D + 1

/-- IEEE-754 binary32 rounding (round to nearest, ties to even) of an exact
rational value, as performed by `astype(np.float32)` /
`np.array(data, dtype=np.float32)` on each component of a double.  `none`
models overflow to an infinity; subnormal results round at the fixed
quantum `2 ^ (-149)` obtained by clamping the exponent at `-126`.  The
binary exponent `e = ⌊log2 |q|⌋` is computed from the bit lengths of the
numerator and denominator plus one correction step; the fuel `4200` makes
the bit-length computation exact far beyond the numerators and
denominators IEEE doubles (the inputs the source narrows) can have. -/
def f32round (q : ℚ) : Option ℚ :=
  if q = 0 then some 0
  else
    let n := q.num.natAbs
    let d := q.den
    let e0 : ℤ := (nbits 4200 n : ℤ) - (nbits 4200 d : ℤ)
    let e1 : ℤ := if le2exp d n e0 then e0 else e0 - 1
    let e : ℤ := max e1 (-126)
    let m : ℕ := if 0 ≤ 23 - e then rne (n * 2 ^ (23 - e).toNat) d
                 else rne n (d * 2 ^ (e - 23).toNat)
    let sm : ℤ := if q < 0 then -(m : ℤ) else (m : ℤ)
    if 0 ≤ e - 23 then
      if 2 ^ 128 ≤ m * 2 ^ (e - 23).toNat then none
      else some (mkRat (sm * (2 ^ (e - 23).toNat : ℕ)) 1)
    else some (mkRat sm (2 ^ (23 - e).toNat))

/-- `Vector.__init__` on a list of numbers:
`np.array(data, dtype=np.float32)` coerces every component to binary32. -/
def vectorInit (data : List ℚ) : List (Option ℚ) :=
  data.map f32round

end Vec

/-- An HTTP response as the client observes it: status code and body text. -/
structure Response where
  status : ℕ
  body : String
deriving DecidableEq

/-- The exception classes of `client.py` that operations can raise:
`VectisError` (operation failures, carrying the diagnostic message) and
`VectisConnectionError` (transport failures).  `VectisNotFoundError` is
declared in the source but never raised. -/
inductive SdkError where
  | vectisError (msg : String)
  | connectionError (msg : String)
deriving DecidableEq

/-- The mutable state a `VectisClient` instance carries besides its fixed
configuration: whether `self.session.close()` has been called.  The source
keeps no other state; in particular it has no flag recording that the
client was closed. -/
structure ClientState where
  sessionClosed : Bool
deriving DecidableEq

namespace VectisClient

/-- `VectisClient.close`: closes the HTTP session and nothing else. -/
def close (c : ClientState) : ClientState :=
  { c with sessionClosed := true }

/-- `VectisClient.get` applied to the response of `/api/get`: 404 yields
`None`, any other non-200 status raises `VectisError`, 200 yields the body.
Note that `_request` issues the request unconditionally: no field of the
client state is consulted, which is why `c` is unused (a closed
`requests.Session` still sends requests). -/
def get (c : ClientState) (resp : Response) : Except SdkError (Option String) :=
  if resp.status = 404 then .ok none
  else if resp.status ≠ 200 then .error (.vectisError ("GET failed: " ++ resp.body))
  else .ok (some resp.body)

/-- `VectisClient.put` applied to the response of `/api/put`. -/
def put (c : ClientState) (resp : Response) : Except SdkError Unit :=
  if resp.status ≠ 200 then .error (.vectisError ("PUT failed: " ++ resp.body))
  else .ok ()

/-- `VectisClient.delete` applied to the response of `/api/delete`. -/
def delete (c : ClientState) (resp : Response) : Except SdkError Unit :=
  if resp.status ≠ 200 then .error (.vectisError ("DELETE failed: " ++ resp.body))
  else .ok ()

/-- The response of `/api/batch_get` as the client decodes it: status,
body text, and the parsed `values` array, whose entries are JSON `null`
(`none`) or strings. -/
structure BatchGetResponse where
  status : ℕ
  body : String
  values : List (Option String)
deriving DecidableEq

/-- Python truthiness of a decoded JSON value slot: `None` and the empty
string are falsy, every other string is truthy.  This is the test
`v if v else None` applies to each zipped value. -/
def truthyStr : Option String → Bool
  | none => false
  | some s => !s.isEmpty

/-- `VectisClient.batch_get`: on a non-200 status raises `VectisError`;
otherwise builds `{k: v if v else None for k, v in zip(keys, values)}`.
Python `zip` stops at the shorter sequence, and the dict comprehension over
duplicate-free keys is modelled by the association list. -/
def batch_get (c : ClientState) (keys : List String) (resp : BatchGetResponse) :
    Except SdkError (List (String × Option String)) :=
  if resp.status ≠ 200 then .error (.vectisError ("Batch GET failed: " ++ resp.body))
  else .ok ((keys.zip resp.values).map
    (fun kv => (kv.1, if truthyStr kv.2 then kv.2 else none)))

/-- Modelled from the spec: the remote store itself is not part of this
repository; section 6 of the spec fixes its wire contract for
`GET /api/get` as status 200 with the stored value as the body, or status
404 when the key is absent. -/
def serverGetResponse (store : String → Option String) (k : String) : Response :=
  match store k with
  | some v => { status := 200, body := v }
  | none => { status := 404, body := "" }

/-- Modelled from the spec: the `/api/batch_get` response of a conforming
remote store, per sections 3 and 6 of the spec: status 200 with a
positionally aligned value per requested key, an explicit absent marker
(JSON null) for missing keys. -/
def serverBatchGetResponse (store : String → Option String) (keys : List String) :
    BatchGetResponse :=
  { status := 200, body := "", values := keys.map store }

/-- `VectisClient.put_vector`: the JSON payload sent to `/api/vector/put`
is `{key, vector: Vector(vector).to_list()}`; `to_list` returns the stored
(already float32-coerced) components. -/
def put_vector_wire (key : String) (vector : List ℚ) : String × List (Option ℚ) :=
  (key, Vec.vectorInit vector)

/-- `VectisClient.search_similar`: the JSON payload sent to
`/api/vector/search` is `{query: Vector(query).to_list(), k}`. -/
def search_similar_wire (query : List ℚ) (k : ℕ) : List (Option ℚ) × ℕ :=
  (Vec.vectorInit query, k)

end VectisClient

/-! ## Claim theorems: client request/response contract -/

/-- Claim C1 (code bug): evaluating `batch_get` at a length-mismatched
response.  A two-key request answered by a one-value 200 response does not
fail at all: `zip` silently truncates, the returned mapping drops the
second key, and no ProtocolError (or any error) is raised. -/
theorem c1_batch_get_length_mismatch_returns :
    VectisClient.batch_get { sessionClosed := false } ["a", "b"]
      { status := 200, body := "", values := [some "x"] } =
    Except.ok [("a", some "x")] := rfl

/-- Claim C3 (code bug): a stored empty-string value.  Against a conforming
remote holding `"k" ↦ ""`, single-key `get` returns the present empty
string, but `batch_get` classifies the same slot as absent, because the
re-pairing tests Python truthiness (`v if v else None`) and the empty
string is falsy.  The mapping therefore does not match single-key `get`
one-for-one. -/
theorem c3_batch_get_empty_string_misclassified :
    VectisClient.get { sessionClosed := false }
      (VectisClient.serverGetResponse
        (fun k => if k = "k" then some "" else none) "k") =
      Except.ok (some "") ∧
    VectisClient.batch_get { sessionClosed := false } ["k"]
      (VectisClient.serverBatchGetResponse
        (fun k => if k = "k" then some "" else none) ["k"]) =
      Except.ok [("k", none)] :=
  ⟨rfl, rfl⟩

/-- Claim C4, counterexample: after `close()`, `get` on a 200 response
still returns the value instead of failing with a ClientClosed condition
(the source keeps no closed flag and `_request` issues the request
unconditionally). -/
theorem c4_counterexample_get_after_close :
    VectisClient.get (VectisClient.close { sessionClosed := false })
      { status := 200, body := "v" } = Except.ok (some "v") := rfl

/-- Claim C4 (amended): `close()` only closes the underlying HTTP session;
the client records no Closed state and defines no ClientClosed condition,
so every operation invoked after `close()` still issues its request and
behaves exactly as before `close()`. -/
theorem c4_operations_unchanged_after_close (c : ClientState) (resp : Response)
    (keys : List String) (bresp : VectisClient.BatchGetResponse) :
    VectisClient.get (VectisClient.close c) resp = VectisClient.get c resp ∧
    VectisClient.put (VectisClient.close c) resp = VectisClient.put c resp ∧
    VectisClient.delete (VectisClient.close c) resp = VectisClient.delete c resp ∧
    VectisClient.batch_get (VectisClient.close c) keys bresp =
      VectisClient.batch_get c keys bresp :=
  ⟨rfl, rfl, rfl, rfl⟩

/-- Claim C8: `get` distinguishes three outcomes: status 404 yields the
absent value, status 200 yields the body as the value, and every other
status raises the operation-failure error carrying the remote diagnostic
text; absence is never conflated with failure. -/
theorem c8_get_three_outcomes (c : ClientState) (resp : Response) :
    (resp.status = 404 → VectisClient.get c resp = Except.ok none) ∧
    (resp.status = 200 → VectisClient.get c resp = Except.ok (some resp.body)) ∧
    (resp.status ≠ 404 → resp.status ≠ 200 →
      VectisClient.get c resp =
        Except.error (SdkError.vectisError ("GET failed: " ++ resp.body))) := by
  refine ⟨fun h => by simp [VectisClient.get, h],
    fun h => by simp [VectisClient.get, h],
    fun h h2 => by simp [VectisClient.get, h, h2]⟩

/-- Witness for C8 at a concrete failing status: a 500 response with body
`boom` raises the operation failure carrying that text. -/
theorem c8_witness :
    VectisClient.get { sessionClosed := false } { status := 500, body := "boom" } =
      Except.error (SdkError.vectisError ("GET failed: " ++ "boom")) :=
  (c8_get_three_outcomes { sessionClosed := false } { status := 500, body := "boom" }).2.2
    (by decide) (by decide)

/-! ## Claim theorems: component indexing -/

/-- Claim C9: indexed access.  For every vector and integer index, an index
in the valid range `[-n, n)` (numpy semantics: negative positions count
from the end) reads a component successfully, and writes successfully
without changing the length; any index outside that range fails with the
IndexError condition for both reading and writing, so out-of-range access
never yields a value and never extends the vector. -/
theorem c9_indexing (v : List ℚ) (i : ℤ) :
    ((-(v.length : ℤ) ≤ i ∧ i < (v.length : ℤ)) →
      (Vec.getitem v i).isSome = true ∧
      ∀ q : ℚ, (Vec.setitem v i q).map List.length = some v.length) ∧
    (¬(-(v.length : ℤ) ≤ i ∧ i < (v.length : ℤ)) →
      Vec.getitem v i = none ∧ ∀ q : ℚ, Vec.setitem v i q = none) := by
  constructor
  · rintro ⟨hlo, hhi⟩
    by_cases h0 : 0 ≤ i
    · have hi : i.toNat < v.length := by omega
      refine ⟨?_, fun q => ?_⟩
      · simp [Vec.getitem, if_pos (And.intro h0 hhi), List.getElem?_eq_getElem hi]
      · simp [Vec.setitem, if_pos (And.intro h0 hhi)]
    · have hneg : i < 0 := by omega
      have hi : (i + (v.length : ℤ)).toNat < v.length := by omega
      refine ⟨?_, fun q => ?_⟩
      · simp [Vec.getitem, if_neg (by omega : ¬(0 ≤ i ∧ i < (v.length : ℤ))),
          if_pos (And.intro hlo hneg), List.getElem?_eq_getElem hi]
      · simp [Vec.setitem, if_neg (by omega : ¬(0 ≤ i ∧ i < (v.length : ℤ))),
          if_pos (And.intro hlo hneg)]
  · intro h
    refine ⟨?_, fun q => ?_⟩
    · simp [Vec.getitem, if_neg (by omega : ¬(0 ≤ i ∧ i < (v.length : ℤ))),
        if_neg (by omega : ¬(-(v.length : ℤ) ≤ i ∧ i < 0))]
    · simp [Vec.setitem, if_neg (by omega : ¬(0 ≤ i ∧ i < (v.length : ℤ))),
        if_neg (by omega : ¬(-(v.length : ℤ) ≤ i ∧ i < 0))]

/-- Witness for C9 at a concrete valid negative index: reading position -1
of a 2-component vector succeeds, and writing it keeps the length 2. -/
theorem c9_witness :
    (Vec.getitem [(1 : ℚ), 2] (-1)).isSome = true ∧
    (Vec.setitem [(1 : ℚ), 2] (-1) 7).map List.length = some 2 :=
  ⟨((c9_indexing [(1 : ℚ), 2] (-1)).1 (by norm_num)).1,
   ((c9_indexing [(1 : ℚ), 2] (-1)).1 (by norm_num)).2 7⟩

/-! ## Helper lemmas about the squared norm -/

namespace Vec

theorem normSq_cons (a : ℚ) (l : List ℚ) : normSq (a :: l) = a * a + normSq l := by
  simp [normSq, dotSum]

theorem normSq_nonneg (v : List ℚ) : 0 ≤ normSq v := by
  induction v with
  | nil => simp [normSq, dotSum]
  | cons a l ih => rw [normSq_cons]; exact add_nonneg (mul_self_nonneg a) ih

theorem normSq_sub_comm : ∀ v w : List ℚ,
    normSq (List.zipWith (fun a b => a - b) v w) =
      normSq (List.zipWith (fun a b => a - b) w v)
  | [], w => by cases w <;> rfl
  | _ :: _, [] => rfl
  | a :: v, b :: w => by
    rw [List.zipWith_cons_cons, List.zipWith_cons_cons, normSq_cons, normSq_cons,
      normSq_sub_comm v w]
    ring_nf

theorem normSq_sub_eq_zero : ∀ v w : List ℚ, v.length = w.length →
    (normSq (List.zipWith (fun a b => a - b) v w) = 0 ↔ v = w)
  | [], [], _ => by simp [normSq, dotSum]
  | [], _ :: _, h => by simp at h
  | _ :: _, [], h => by simp at h
  | a :: v, b :: w, h => by
    have hlen : v.length = w.length := by simpa using h
    rw [List.zipWith_cons_cons, normSq_cons]
    have h1 : 0 ≤ (a - b) * (a - b) := mul_self_nonneg _
    have h2 : 0 ≤ normSq (List.zipWith (fun a b => a - b) v w) := normSq_nonneg _
    constructor
    · intro h0
      obtain ⟨hab, hvw⟩ := (add_eq_zero_iff_of_nonneg h1 h2).1 h0
      have ha : a = b := sub_eq_zero.1 (mul_self_eq_zero.1 hab)
      have hv : v = w := (normSq_sub_eq_zero v w hlen).1 hvw
      simp [ha, hv]
    · intro heq
      simp only [List.cons.injEq] at heq
      obtain ⟨rfl, rfl⟩ := heq
      have hv : normSq (List.zipWith (fun a b => a - b) v v) = 0 :=
        (normSq_sub_eq_zero v v rfl).2 rfl
      rw [hv]
      ring_nf

theorem sumSq_map_div (v : List ℚ) (n : ℝ) (hn : n ≠ 0) :
    ((v.map (fun x : ℚ => (x : ℝ) / n)).map (fun x => x ^ 2)).sum =
      ((normSq v : ℚ) : ℝ) / n ^ 2 := by
  induction v with
  | nil => simp [normSq, dotSum]
  | cons a l ih =>
    simp only [List.map_cons, List.sum_cons, ih]
    rw [normSq_cons]
    push_cast
    field_simp
    ring

end Vec

/-! ## Claim theorems: vector metrics -/

/-- Claim C5: `normalize` returns a vector of unit L2 norm (stated via the
sum of squared components) whenever the squared norm of the input is
nonzero, and returns a componentwise copy of the input when the norm is
exactly zero — a no-op, not an error.  The source method builds a fresh
array in both branches, so the original is unchanged (immediate in this
functional model). -/
theorem c5_normalize (v : List ℚ) (w : List ℝ) (hw : Vec.normalizesTo v w) :
    (Vec.normSq v ≠ 0 → (w.map (fun x => x ^ 2)).sum = 1) ∧
    (Vec.normSq v = 0 → w = v.map (fun x : ℚ => (x : ℝ))) := by
  unfold Vec.normalizesTo at hw
  by_cases h : 0 < Vec.normSq v
  · rw [if_pos h] at hw
    obtain ⟨n, hn0, hn2, rfl⟩ := hw
    refine ⟨fun _ => ?_, fun h0 => absurd h0 (ne_of_gt h)⟩
    rw [Vec.sumSq_map_div v n (ne_of_gt hn0), ← hn2]
    exact div_self (pow_ne_zero 2 (ne_of_gt hn0))
  · rw [if_neg h] at hw
    have h0 : Vec.normSq v = 0 := le_antisymm (not_lt.1 h) (Vec.normSq_nonneg v)
    exact ⟨fun hne => absurd h0 hne, fun _ => hw⟩

/-- Witness for C5 at the concrete vector (3, 4): the normalized components
(3/5, 4/5) have squared-component sum 1. -/
theorem c5_witness :
    (([(3 : ℚ), 4].map (fun x : ℚ => (x : ℝ) / 5)).map (fun x => x ^ 2)).sum = 1 := by
  have hw : Vec.normalizesTo [(3 : ℚ), 4] ([(3 : ℚ), 4].map (fun x : ℚ => (x : ℝ) / 5)) := by
    unfold Vec.normalizesTo
    rw [if_pos (by norm_num [Vec.normSq, Vec.dotSum])]
    exact ⟨5, by norm_num, by norm_num [Vec.normSq, Vec.dotSum], rfl⟩
  exact (c5_normalize [(3 : ℚ), 4] _ hw).1 (by norm_num [Vec.normSq, Vec.dotSum])

/-- Claim C6: on equal-dimension vectors, if either vector has zero norm
then `cosine_similarity` returns exactly 0.0 — a defined result (the
relation holds at 0 and at no other value), not NaN and not a failure. -/
theorem c6_cosine_zero_norm (v w : List ℚ) (h : v.length = w.length)
    (hz : Vec.normSq v = 0 ∨ Vec.normSq w = 0) :
    Vec.cosine_similarity v w 0 ∧ ∀ r : ℝ, Vec.cosine_similarity v w r → r = 0 := by
  constructor
  · exact ⟨Vec.dotSum v w, by simp [Vec.npDot, h], fun _ => rfl, fun hc => absurd hz hc⟩
  · rintro r ⟨d, hd, h0, h1⟩
    exact h0 hz

/-- Witness for C6 at the zero vector against (5): the similarity is 0. -/
theorem c6_witness : Vec.cosine_similarity [(0 : ℚ)] [(5 : ℚ)] 0 :=
  (c6_cosine_zero_norm [(0 : ℚ)] [(5 : ℚ)] rfl
    (Or.inl (by norm_num [Vec.normSq, Vec.dotSum]))).1

/-- Claim C7: on equal-dimension vectors the euclidean distance (the square
root of the computed squared distance) is symmetric, nonnegative, and zero
exactly when the two vectors are componentwise equal; the computation
always succeeds. -/
theorem c7_euclidean_metric (v w : List ℚ) (h : v.length = w.length) :
    Vec.dist2 v w = Vec.dist2 w v ∧ (Vec.dist2 v w).isSome = true ∧
    ∀ d : ℚ, Vec.dist2 v w = some d →
      0 ≤ Real.sqrt (d : ℝ) ∧ (Real.sqrt (d : ℝ) = 0 ↔ v = w) := by
  have hv : Vec.dist2 v w =
      some (Vec.normSq (List.zipWith (fun a b => a - b) v w)) := by
    simp [Vec.dist2, Vec.npSub, h]
  have hw2 : Vec.dist2 w v =
      some (Vec.normSq (List.zipWith (fun a b => a - b) w v)) := by
    simp [Vec.dist2, Vec.npSub, h.symm]
  refine ⟨?_, ?_, ?_⟩
  · rw [hv, hw2, Vec.normSq_sub_comm]
  · rw [hv]; rfl
  · intro d hd
    rw [hv] at hd
    obtain rfl := (Option.some.inj hd).symm
    refine ⟨Real.sqrt_nonneg _, ?_⟩
    rw [Real.sqrt_eq_zero']
    constructor
    · intro hle
      have hle2 : Vec.normSq (List.zipWith (fun a b => a - b) v w) ≤ 0 := by
        exact_mod_cast hle
      exact (Vec.normSq_sub_eq_zero v w h).1 (le_antisymm hle2 (Vec.normSq_nonneg _))
    · intro heq
      have h0 : Vec.normSq (List.zipWith (fun a b => a - b) v w) = 0 :=
        (Vec.normSq_sub_eq_zero v w h).2 heq
      rw [h0]
      exact_mod_cast le_refl (0 : ℝ)

/-- Witness for C7 at concrete vectors (1,2) and (3,4): the two squared
distances agree. -/
theorem c7_witness : Vec.dist2 [(1 : ℚ), 2] [3, 4] = Vec.dist2 [(3 : ℚ), 4] [1, 2] :=
  (c7_euclidean_metric [(1 : ℚ), 2] [(3 : ℚ), 4] rfl).1

/-- Claim C2, counterexample: a dimension-1 vector against a dimension-2
vector.  The dimensions differ, yet `euclidean_distance` does not fail:
numpy broadcasting makes the subtraction succeed and the method returns
the distance `sqrt 5` (squared distance 5) — no DimensionMismatch
condition, and no validation before computing. -/
theorem c2_counterexample_broadcast :
    [(2 : ℚ)].length < [(3 : ℚ), 4].length ∧ Vec.dist2 [(2 : ℚ)] [3, 4] = some 5 := by
  constructor
  · decide
  · norm_num [Vec.dist2, Vec.npSub, Vec.normSq, Vec.dotSum, List.headI]

/-- Claim C2 (amended): on vectors of differing dimension, `dot_product`
and `cosine_similarity` do fail (the shape error is raised by numpy during
the computation, not by a prior validation step), and `euclidean_distance`
fails when neither dimension is 1; but when one operand has dimension 1
the subtraction silently broadcasts and `euclidean_distance` returns a
value instead of failing. -/
theorem c2_dimension_mismatch (v w : List ℚ) (h : v.length ≠ w.length) :
    Vec.dot_product v w = none ∧
    (∀ r : ℝ, ¬ Vec.cosine_similarity v w r) ∧
    (v.length ≠ 1 → w.length ≠ 1 → Vec.dist2 v w = none) ∧
    ((v.length = 1 ∨ w.length = 1) → (Vec.dist2 v w).isSome = true) := by
  refine ⟨?_, ?_, ?_, ?_⟩
  · simp [Vec.dot_product, Vec.npDot, h]
  · rintro r ⟨d, hd, -, -⟩
    simp [Vec.npDot, h] at hd
  · intro h1 h2
    simp [Vec.dist2, Vec.npSub, h, h1, h2]
  · rintro (h1 | h1)
    · simp only [Vec.dist2, Vec.npSub]
      rw [if_neg h, if_pos h1]
      rfl
    · have hv1 : v.length ≠ 1 := fun hc => h (hc.trans h1.symm)
      simp only [Vec.dist2, Vec.npSub]
      rw [if_neg h, if_neg hv1, if_pos h1]
      rfl

/-- Witness for C2 at concrete vectors of dimensions 2 and 3: the
subtraction cannot broadcast either, so the distance computation fails. -/
theorem c2_witness : Vec.dist2 [(1 : ℚ), 2] [1, 2, 3] = none :=
  (c2_dimension_mismatch [(1 : ℚ), 2] [1, 2, 3] (by decide)).2.2.1 (by decide) (by decide)

/-! ## Claim theorem: float32 coercion on the wire -/

/-- Claim C10: constructing a Vector coerces every component to binary32,
and both `put_vector` and `search_similar` serialize exactly these coerced
values; at the Python double 0.1 (the rational 3602879701896397/2^55) the
transmitted component is the binary32 rounding 13421773/2^27, which is
strictly larger than — hence different from — the original double. -/
theorem c10_float32_serialization :
    (∀ (key : String) (v : List ℚ),
      VectisClient.put_vector_wire key v = (key, v.map Vec.f32round)) ∧
    (∀ (q : List ℚ) (k : ℕ),
      VectisClient.search_similar_wire q k = (q.map Vec.f32round, k)) ∧
    Vec.f32round (mkRat 3602879701896397 36028797018963968) =
      some (mkRat 13421773 134217728) ∧
    mkRat 3602879701896397 36028797018963968 < mkRat 13421773 134217728 :=
  ⟨fun key v => rfl, fun q k => rfl, by decide, by decide⟩
